import Mathlib

/-!
# Verification of the production-plan parser backend

Shallow embedding of the extraction-and-normalization pipeline and the
query/filter layer of the `coding-exercise-dos` backend
(`backend/parser.py`, `backend/models.py`, `backend/database.py`),
with theorems settling the specification claims about them.

JSON values coming back from the extraction oracle, and the documents in
the store, are modelled by the inductive type `Json` below; numbers are
modelled as integers (the fields the code reads as numbers are integer
quantities).  Python `dict`s are modelled as association lists with the
first binding of a key the visible one, and `dict` iteration order is the
list order.
-/

set_option autoImplicit false

namespace ProdPlan

/-- JSON values (numbers modelled as integers). -/
inductive Json where
  | null
  | bool (b : Bool)
  | num (n : Int)
  | str (s : String)
  | arr (elems : List Json)
  | obj (fields : List (String × Json))
  deriving Repr

/-- First binding of key `k` in an association list (Python `d[k]` / `d.get(k)`). -/
def lookup (kvs : List (String × Json)) (k : String) : Option Json :=
  match kvs with
  | [] => none
  | (k', v) :: rest => if k' = k then some v else lookup rest k

/-- Python truthiness of a JSON value (`if x:`). -/
def jsonTruthy : Json → Bool
  | .null => false
  | .bool b => b
  | .num n => n != 0
  | .str s => s != ""
  | .arr elems => !elems.isEmpty
  | .obj fields => !fields.isEmpty

/-- First list-valued field of an object, in iteration order: the
`for value in parsed_data.values(): if isinstance(value, list): ... break`
loop of `ProductionPlanParser.extract_production_data`. -/
def firstListValue : List (String × Json) → Option Json
  | [] => none
  | (_, Json.arr elems) :: _ => some (Json.arr elems)
  | _ :: rest => firstListValue rest

/-- Response-shape reconciliation of `ProductionPlanParser.extract_production_data`
(`parser.py` lines 120-135): a dict is probed for `items`, then
`production_items`, then its first list-valued field, and otherwise wrapped
into a one-element list; a non-dict reply is used as-is. -/
def extract_items : Json → Json
  | Json.obj fields =>
    match lookup fields "items" with
    | some v => v
    | none =>
      match lookup fields "production_items" with
      | some v => v
      | none =>
        match firstListValue fields with
        | some v => v
        | none => Json.arr [Json.obj fields]
  | reply => reply

/-! ## Record materialization (`models.py` + `parser.py` lines 144-191)

Pydantic's validation (v2, lax mode, default `extra` handling that ignores
unknown keys) is embedded field by field: an `Optional[str]` field accepts a
string or an explicit null, an `Optional[int]` field accepts an integer, an
integer-valued string or null, an `Optional[Dict]` field accepts an object or
null; anything else is a validation error, which `Option.none` models. -/

/-- `models.ProductionDates`: the milestone-date sub-record. -/
structure ProductionDates where
  fabric : Option String
  cutting : Option String
  sewing : Option String
  finishing : Option String
  packing : Option String
  shipping : Option String
  delivery : Option String
  other_milestones : Option (List (String × String))
  deriving Repr, DecidableEq

/-- `ProductionDates()` with no arguments: all milestone fields default to
`None`, `other_milestones` to an empty dict (`default_factory=dict`). -/
def defaultProductionDates : ProductionDates :=
  ⟨none, none, none, none, none, none, none, some []⟩

/-- `models.ProductionItemCreate` (= `ProductionItemBase`). -/
structure ProductionItemCreate where
  order_number : Option String
  style : Option String
  fabric : Option String
  color : Option String
  quantity : Option Int
  status : Option String
  dates : ProductionDates
  source_file : Option String
  additional_data : Option (List (String × Json))
  deriving Repr

/-- Validate one `Optional[str]` pydantic field read with `.get(k)`:
absent or null gives `None`, a string passes through, any other value is a
validation error. -/
def getStrField (raw : List (String × Json)) (k : String) : Option (Option String) :=
  match lookup raw k with
  | none => some none
  | some Json.null => some none
  | some (Json.str s) => some (some s)
  | some _ => none

/-- Validate the `Optional[int]` `quantity` field read with `.get("quantity")`:
absent or null gives `None`, an integer passes through, a string is coerced
when it spells an integer (pydantic lax mode), anything else is a validation
error. -/
def getQuantityField (raw : List (String × Json)) : Option (Option Int) :=
  match lookup raw "quantity" with
  | none => some none
  | some Json.null => some none
  | some (Json.num n) => some (some n)
  | some (Json.str s) =>
    match s.toInt? with
    | some n => some (some n)
    | none => none
  | some _ => none

/-- The `status` field: `item_data.get("status", "pending")` defaults to
`"pending"` only when the key is absent; an explicit null stays `None`. -/
def getStatusField (raw : List (String × Json)) : Option (Option String) :=
  match lookup raw "status" with
  | none => some (some "pending")
  | some Json.null => some none
  | some (Json.str s) => some (some s)
  | some _ => none

/-- The `additional_data` field: `item_data.get("additional_data", {})`,
validated as `Optional[Dict[str, Any]]`. -/
def getAdditionalField (raw : List (String × Json)) : Option (Option (List (String × Json))) :=
  match lookup raw "additional_data" with
  | none => some (some [])
  | some Json.null => some none
  | some (Json.obj fields) => some (some fields)
  | some _ => none

/-- `other_milestones : Optional[Dict[str, str]]` of `ProductionDates`:
absent gives the empty dict (`default_factory=dict`), null stays `None`, an
object all of whose values are strings passes, anything else fails. -/
def getMilestonesField (fields : List (String × Json)) : Option (Option (List (String × String))) :=
  match lookup fields "other_milestones" with
  | none => some (some [])
  | some Json.null => some none
  | some (Json.obj m) =>
    let strPairs := m.mapM (fun p =>
      match p.2 with
      | Json.str s => some (p.1, s)
      | _ => none)
    strPairs.map some
  | some _ => none

/-- `ProductionDates(**dates_data)` on a keyword dict: validate each named
milestone field as `Optional[str]`; unknown keys are ignored. -/
def mkDates (fields : List (String × Json)) : Option ProductionDates := do
  let fabric ← getStrField fields "fabric"
  let cutting ← getStrField fields "cutting"
  let sewing ← getStrField fields "sewing"
  let finishing ← getStrField fields "finishing"
  let packing ← getStrField fields "packing"
  let shipping ← getStrField fields "shipping"
  let delivery ← getStrField fields "delivery"
  let other ← getMilestonesField fields
  pure ⟨fabric, cutting, sewing, finishing, packing, shipping, delivery, other⟩

/-- The dates handling of `parse_excel_to_production_items` (lines 164-169):
`dates_data = item_data.pop("dates", {})`; a falsy value (absent, null, `0`,
`""`, `[]`, `{}`, `False`) yields `ProductionDates()`; a truthy value is
splatted into `ProductionDates(**dates_data)`, which raises (`none`) when it
is not a dict or fails validation. -/
def mkDatesField (j : Option Json) : Option ProductionDates :=
  match j with
  | none => some defaultProductionDates
  | some v =>
    if jsonTruthy v then
      match v with
      | Json.obj fields => mkDates fields
      | _ => none
    else
      some defaultProductionDates

/-- One iteration of the materialization loop of
`parse_excel_to_production_items` (lines 162-188) on a raw extracted value:
a non-dict raises at `item_data.pop` (modelled `none`), a dict is converted
to a `ProductionItemCreate`, with any construction error giving `none`. -/
def mkItem (filename : String) (rawValue : Json) : Option ProductionItemCreate :=
  match rawValue with
  | Json.obj raw => do
    let dates ← mkDatesField (lookup raw "dates")
    let order_number ← getStrField raw "order_number"
    let style ← getStrField raw "style"
    let fabric ← getStrField raw "fabric"
    let color ← getStrField raw "color"
    let quantity ← getQuantityField raw
    let status ← getStatusField raw
    let additional ← getAdditionalField raw
    pure ⟨order_number, style, fabric, color, quantity, status, dates, some filename, additional⟩
  | _ => none

/-- The whole materialization loop: each raw value is converted
independently, failures are logged and skipped (`continue`), never raised. -/
def parse_excel_items (filename : String) (extracted : List Json) : List ProductionItemCreate :=
  extracted.filterMap (mkItem filename)

/-! ## Document store (`database.py`)

The store is external (MongoDB); the repository only builds query documents
and is specified against the store's CRUD contract.  A collection is
modelled as a list of `StoredDoc` in insertion order.  The `$regex` /
`$options: "i"` matcher the queries rely on is embedded for the pattern
fragment the proofs touch: literal characters and the metacharacter `.`
(matching any character), searched case-insensitively anywhere in the
field. -/

/-- A document of the `production_items` collection, with the fields the
query and timestamp claims are about; timestamps are modelled as naturals. -/
structure StoredDoc where
  id : String
  order_number : Option String
  style : Option String
  fabric : Option String
  color : Option String
  quantity : Option Int
  status : Option String
  created_at : Nat
  updated_at : Nat
  deriving Repr, DecidableEq

/-- One element of a compiled regular expression: a literal character or the
any-character metacharacter `.`. -/
inductive RElem where
  | lit (c : Char)
  | dot
  deriving Repr, DecidableEq

/-- Compile a pattern string, recognising `.`; every other character is a
literal.  (Faithful to PCRE only on patterns free of the remaining
metacharacters; the theorems restrict themselves to that fragment.) -/
def compilePattern (pat : List Char) : List RElem :=
  pat.map fun c => if c = '.' then RElem.dot else RElem.lit c

/-- Case-insensitive match of one pattern element against one character
(`$options: "i"`). -/
def charMatch : RElem → Char → Bool
  | .lit c, d => c.toLower = d.toLower
  | .dot, _ => true

/-- Match a compiled pattern against a prefix of the text. -/
def matchHere : List RElem → List Char → Bool
  | [], _ => true
  | _ :: _, [] => false
  | e :: ps, c :: cs => charMatch e c && matchHere ps cs

/-- Unanchored regex search: try every starting position. -/
def regexSearch (ps : List RElem) : List Char → Bool
  | [] => matchHere ps []
  | c :: cs => matchHere ps (c :: cs) || regexSearch ps cs

/-- Case-insensitive prefix test on character lists. -/
def prefixCI : List Char → List Char → Bool
  | [], _ => true
  | _ :: _, [] => false
  | c :: ns, d :: hs => (c.toLower = d.toLower) && prefixCI ns hs

/-- The spec's notion of a filter hit, stated independently of the code:
`needle` occurs somewhere inside `hay`, ignoring case. -/
def substrCI (needle : List Char) : List Char → Bool
  | [] => prefixCI needle []
  | c :: cs => prefixCI needle (c :: cs) || substrCI needle cs

/-- `needle` occurs anywhere in `hay`, ignoring case (string version). -/
def stringContainsCI (needle hay : String) : Bool :=
  substrCI needle.data hay.data

/-- The PCRE metacharacters; a pattern free of them matches purely
literally. -/
def isRegexMeta (c : Char) : Bool :=
  c = '.' || c = '^' || c = '$' || c = '*' || c = '+' || c = '?' ||
  c = '(' || c = ')' || c = '[' || c = ']' || c = '\x7b' || c = '\x7d' ||
  c = '\\' || c = '|'

/-- A `{"field": {"$regex": pat, "$options": "i"}}` clause evaluated on an
optional document field: a missing field matches nothing. -/
def fieldRegexCI (pat : String) (field : Option String) : Bool :=
  match field with
  | none => false
  | some s => regexSearch (compilePattern pat.data) s.data

/-- The filter parameters of `Database.get_production_items`. -/
structure ItemFilter where
  style : Option String
  status : Option String
  order_number : Option String
  deriving Repr

/-- The query document built in `database.py` lines 62-69, evaluated on one
document.  A clause is added only when the parameter is truthy
(`if style:` — `None` and `""` both skip it); `style` and `order_number`
become case-insensitive `$regex` clauses, `status` an exact equality. -/
def matchesQuery (f : ItemFilter) (d : StoredDoc) : Bool :=
  (match f.style with
   | none => true
   | some s => if s = "" then true else fieldRegexCI s d.style) &&
  (match f.status with
   | none => true
   | some s => if s = "" then true else d.status = some s) &&
  (match f.order_number with
   | none => true
   | some s => if s = "" then true else fieldRegexCI s d.order_number)

/-- Sort by `created_at` descending (`.sort("created_at", -1)`); insertion
sort, which is a stable sort like the store's. -/
def insertByCreatedDesc (d : StoredDoc) : List StoredDoc → List StoredDoc
  | [] => [d]
  | e :: rest =>
    if e.created_at ≤ d.created_at then d :: e :: rest
    else e :: insertByCreatedDesc d rest

/-- Sort a list of documents by `created_at` descending. -/
def sortByCreatedDesc : List StoredDoc → List StoredDoc
  | [] => []
  | d :: rest => insertByCreatedDesc d (sortByCreatedDesc rest)

/-- `Database.get_production_items` (lines 53-82): the page after
sort/skip/limit together with `count_documents(query)`, the total number of
matches ignoring pagination. -/
def get_production_items (db : List StoredDoc) (skip limit : Nat) (f : ItemFilter) :
    List StoredDoc × Nat :=
  let matching := db.filter (matchesQuery f)
  let total := matching.length
  let page := ((sortByCreatedDesc matching).drop skip).take limit
  (page, total)

/-- `bson.ObjectId(s)` accepts a string exactly when it is 24 hexadecimal
characters; otherwise it raises `InvalidId`. -/
def isValidObjectId (s : String) : Bool :=
  s.length = 24 && s.data.all fun c =>
    c.isDigit || ('a' ≤ c && c ≤ 'f') || ('A' ≤ c && c ≤ 'F')

/-- `Database.get_production_item` (lines 42-51): `ObjectId(item_id)` raising
on an invalid identifier is caught and turned into `None`; otherwise the
first document with that `_id` is returned. -/
def get_production_item (db : List StoredDoc) (item_id : String) : Option StoredDoc :=
  if isValidObjectId item_id then
    db.find? fun d => d.id = item_id
  else
    none

/-- Remove the first document matching the predicate (`delete_one`). -/
def eraseFirstDoc (p : StoredDoc → Bool) : List StoredDoc → List StoredDoc
  | [] => []
  | d :: rest => if p d then rest else d :: eraseFirstDoc p rest

/-- `Database.delete_production_item` (lines 97-104): an invalid identifier
raises inside the `try`, is caught, and becomes `False`; otherwise
`delete_one` removes the first matching document and reports
`deleted_count > 0`. -/
def delete_production_item (db : List StoredDoc) (item_id : String) :
    List StoredDoc × Bool :=
  if isValidObjectId item_id then
    (eraseFirstDoc (fun d => d.id = item_id) db, db.any fun d => d.id = item_id)
  else
    (db, false)

/-- Turn a `ProductionItemCreate` dump into a stored document with the two
timestamps `created_at = datetime.utcnow()` and `updated_at =
datetime.utcnow()` (two separate clock reads) and the store-assigned
identifier. -/
def docOfItem (item : ProductionItemCreate) (newId : String) (t1 t2 : Nat) : StoredDoc :=
  { id := newId
    order_number := item.order_number
    style := item.style
    fabric := item.fabric
    color := item.color
    quantity := item.quantity
    status := item.status
    created_at := t1
    updated_at := t2 }

/-- `Database.create_production_item` (lines 18-25): stamp both timestamps
and insert; returns the new collection and the inserted identifier. -/
def create_production_item (db : List StoredDoc) (item : ProductionItemCreate)
    (newId : String) (t1 t2 : Nat) : List StoredDoc × String :=
  (db ++ [docOfItem item newId t1 t2], newId)

/-- `Database.create_many_production_items` (lines 27-40): stamp every item
(the `i`-th item's two `utcnow()` reads are `clock (2*i)` and
`clock (2*i+1)`), then call `insert_many` once — unless the list is empty,
in which case `[]` is returned before any store call.  The last component
counts the `insert_many` calls made. -/
def create_many_production_items (db : List StoredDoc) (items : List ProductionItemCreate)
    (mkId : Nat → String) (clock : Nat → Nat) : List String × List StoredDoc × Nat :=
  let docs := items.enum.map fun p => docOfItem p.2 (mkId p.1) (clock (2 * p.1)) (clock (2 * p.1 + 1))
  if docs.isEmpty then
    ([], db, 0)
  else
    (docs.map StoredDoc.id, db ++ docs, 1)

/-- A partial-field update document: `some` marks a field present in
`update_data`, to be `$set` on the document. -/
structure UpdateFields where
  order_number : Option (Option String) := none
  style : Option (Option String) := none
  fabric : Option (Option String) := none
  color : Option (Option String) := none
  quantity : Option (Option Int) := none
  status : Option (Option String) := none
  deriving Repr

/-- Apply `{"$set": update_data}` to one document after
`update_data["updated_at"] = datetime.utcnow()`: the named fields present in
the update replace the stored ones and `updated_at` becomes the clock
read. -/
def applyUpdate (u : UpdateFields) (t : Nat) (d : StoredDoc) : StoredDoc :=
  { d with
    order_number := u.order_number.getD d.order_number
    style := u.style.getD d.style
    fabric := u.fabric.getD d.fabric
    color := u.color.getD d.color
    quantity := u.quantity.getD d.quantity
    status := u.status.getD d.status
    updated_at := t }

/-- Update the first document matching the predicate (`update_one`). -/
def updateFirstDoc (p : StoredDoc → Bool) (f : StoredDoc → StoredDoc) :
    List StoredDoc → List StoredDoc
  | [] => []
  | d :: rest => if p d then f d :: rest else d :: updateFirstDoc p f rest

/-- `Database.update_production_item` (lines 84-95): an invalid identifier
raises, is caught, and becomes `False`; otherwise `update_one` applies
`$set` to the first matching document; the result reports whether a
document was modified. -/
def update_production_item (db : List StoredDoc) (item_id : String)
    (u : UpdateFields) (t : Nat) : List StoredDoc × Bool :=
  if isValidObjectId item_id then
    (updateFirstDoc (fun d => d.id = item_id) (applyUpdate u t) db,
     db.any fun d => d.id = item_id)
  else
    (db, false)

/-! ## Theorems -/

theorem firstListValue_of_split (pre post : List (String × Json)) (k : String)
    (elems : List Json) (hpre : ∀ p ∈ pre, ∀ l : List Json, p.2 ≠ Json.arr l) :
    firstListValue (pre ++ (k, Json.arr elems) :: post) = some (Json.arr elems) := by
  induction pre with
  | nil => rfl
  | cons p rest ih =>
    obtain ⟨k', v⟩ := p
    have hv : ∀ l : List Json, v ≠ Json.arr l := fun l => hpre (k', v) (by simp) l
    have hrest : ∀ p ∈ rest, ∀ l : List Json, p.2 ≠ Json.arr l :=
      fun p hp => hpre p (by simp [hp])
    cases v with
    | arr elems' => exact absurd rfl (hv elems')
    | null => simpa [firstListValue] using ih hrest
    | bool b => simpa [firstListValue] using ih hrest
    | num n => simpa [firstListValue] using ih hrest
    | str s => simpa [firstListValue] using ih hrest
    | obj fields => simpa [firstListValue] using ih hrest

/-- C1: normalization of a parsed oracle reply follows the ordered
precedence, first match wins: a list reply is used as-is; else an object's
`items` list is used; else its `production_items` list; else the first
list-valued field in iteration order; else the object is wrapped as a
one-element list. -/
theorem C1_reply_normalization_precedence (elems : List Json) (fields : List (String × Json)) :
    (extract_items (Json.arr elems) = Json.arr elems) ∧
    (∀ l : List Json, lookup fields "items" = some (Json.arr l) →
      extract_items (Json.obj fields) = Json.arr l) ∧
    (lookup fields "items" = none →
      ∀ l : List Json, lookup fields "production_items" = some (Json.arr l) →
        extract_items (Json.obj fields) = Json.arr l) ∧
    (lookup fields "items" = none → lookup fields "production_items" = none →
      ∀ pre post : List (String × Json), ∀ k : String, ∀ l : List Json,
        fields = pre ++ (k, Json.arr l) :: post →
        (∀ p ∈ pre, ∀ l' : List Json, p.2 ≠ Json.arr l') →
        extract_items (Json.obj fields) = Json.arr l) ∧
    (lookup fields "items" = none → lookup fields "production_items" = none →
      firstListValue fields = none →
      extract_items (Json.obj fields) = Json.arr [Json.obj fields]) := by
  refine ⟨rfl, ?_, ?_, ?_, ?_⟩
  · intro l h
    simp [extract_items, h]
  · intro h1 l h2
    simp [extract_items, h1, h2]
  · intro h1 h2 pre post k l hsplit hpre
    have hfl : firstListValue fields = some (Json.arr l) := by
      rw [hsplit]; exact firstListValue_of_split pre post k l hpre
    simp [extract_items, h1, h2, hfl]
  · intro h1 h2 h3
    simp [extract_items, h1, h2, h3]

/-- Witness for C1 at concrete replies, one per precedence case. -/
theorem C1_reply_normalization_precedence_witness :
    (extract_items (Json.arr [Json.num 1]) = Json.arr [Json.num 1]) ∧
    (extract_items (Json.obj [("items", Json.arr [Json.num 2])]) = Json.arr [Json.num 2]) ∧
    (extract_items (Json.obj [("production_items", Json.arr [Json.num 3])]) =
      Json.arr [Json.num 3]) ∧
    (extract_items (Json.obj [("note", Json.str "x"), ("rows", Json.arr [Json.num 4])]) =
      Json.arr [Json.num 4]) ∧
    (extract_items (Json.obj [("note", Json.str "x")]) =
      Json.arr [Json.obj [("note", Json.str "x")]]) := by
  refine ⟨(C1_reply_normalization_precedence [Json.num 1] []).1, ?_, ?_, ?_, ?_⟩
  · exact (C1_reply_normalization_precedence [] [("items", Json.arr [Json.num 2])]).2.1
      [Json.num 2] rfl
  · exact (C1_reply_normalization_precedence []
      [("production_items", Json.arr [Json.num 3])]).2.2.1 rfl [Json.num 3] rfl
  · refine (C1_reply_normalization_precedence []
      [("note", Json.str "x"), ("rows", Json.arr [Json.num 4])]).2.2.2.1 rfl rfl
      [("note", Json.str "x")] [] "rows" [Json.num 4] rfl ?_
    intro p hp l'
    rcases List.mem_singleton.mp hp with rfl
    exact fun hcontra => Json.noConfusion hcontra
  · exact (C1_reply_normalization_precedence [] [("note", Json.str "x")]).2.2.2.2 rfl rfl rfl

theorem length_filterMap_add_none {α β : Type} (f : α → Option β) (l : List α) :
    (l.filterMap f).length + (l.filter fun x => (f x).isNone).length = l.length := by
  induction l with
  | nil => rfl
  | cons x xs ih =>
    cases hfx : f x <;>
      simp [List.filterMap_cons, List.filter_cons, hfx] <;> omega

/-- C2: on a batch of N raw extracted values of which M fail record
construction, materialization yields exactly N − M records; a bad value is
skipped and never aborts the loop. -/
theorem C2_batch_failure_isolation (filename : String) (extracted : List Json) :
    (parse_excel_items filename extracted).length =
      extracted.length -
        (extracted.filter fun r => (mkItem filename r).isNone).length := by
  have h := length_filterMap_add_none (mkItem filename) extracted
  unfold parse_excel_items
  omega

theorem mkItem_inv {filename : String} {raw : List (String × Json)}
    {item : ProductionItemCreate}
    (h : mkItem filename (Json.obj raw) = some item) :
    mkDatesField (lookup raw "dates") = some item.dates ∧
    getStrField raw "order_number" = some item.order_number ∧
    getStrField raw "style" = some item.style ∧
    getStrField raw "fabric" = some item.fabric ∧
    getStrField raw "color" = some item.color ∧
    getQuantityField raw = some item.quantity ∧
    getStatusField raw = some item.status ∧
    getAdditionalField raw = some item.additional_data ∧
    item.source_file = some filename := by
  simp only [mkItem, Option.bind_eq_bind, Option.bind_eq_some] at h
  obtain ⟨dates, hdates, order_number, horder, style, hstyle, fabric, hfabric,
    color, hcolor, quantity, hquantity, status, hstatus, additional, hadditional,
    hpure⟩ := h
  cases item
  injection hpure with hpure
  cases hpure
  exact ⟨hdates, horder, hstyle, hfabric, hcolor, hquantity, hstatus, hadditional, rfl⟩

/-- C3 counterexample: a raw map carrying the unconsumed key `foo` is
materialized with an **empty** `additional_data` — `foo` is dropped, not
placed into `additional_data` as the claim states. -/
theorem C3_counterexample_extra_key_dropped :
    (mkItem "plan.xlsx" (Json.obj [("foo", Json.str "bar")]) =
      some ⟨none, none, none, none, none, some "pending", defaultProductionDates,
            some "plan.xlsx", some []⟩) ∧
    lookup [] "foo" = none :=
  ⟨rfl, rfl⟩

/-- C3 amended: the materialized `additional_data` is determined solely by
the raw map's own `additional_data` entry; keys not consumed by named
fields are dropped, never folded into `additional_data`. -/
theorem C3_additional_data_only_from_key (filename : String)
    (raw raw' : List (String × Json)) (item item' : ProductionItemCreate)
    (hsame : lookup raw "additional_data" = lookup raw' "additional_data")
    (h : mkItem filename (Json.obj raw) = some item)
    (h' : mkItem filename (Json.obj raw') = some item') :
    item.additional_data = item'.additional_data := by
  have ha := (mkItem_inv h).2.2.2.2.2.2.2.1
  have ha' := (mkItem_inv h').2.2.2.2.2.2.2.1
  have : getAdditionalField raw = getAdditionalField raw' := by
    unfold getAdditionalField
    rw [hsame]
  rw [this, ha'] at ha
  exact (Option.some_inj.mp ha).symm

/-- Witness for the amended C3: two raw maps differing in an unconsumed key
materialize with the same (empty) `additional_data`. -/
theorem C3_additional_data_only_from_key_witness :
    (⟨none, none, none, none, none, some "pending", defaultProductionDates,
      some "plan.xlsx", some []⟩ : ProductionItemCreate).additional_data =
    (⟨none, some "A-1", none, none, none, some "pending", defaultProductionDates,
      some "plan.xlsx", some []⟩ : ProductionItemCreate).additional_data :=
  C3_additional_data_only_from_key "plan.xlsx"
    [("foo", Json.str "bar")] [("style", Json.str "A-1")] _ _ rfl rfl rfl

/-- C4 counterexample: a raw map with a malformed (truthy, non-mapping)
`dates` entry is **not** materialized with empty dates — record
construction fails and the map is skipped. -/
theorem C4_counterexample_malformed_dates_skips :
    mkItem "plan.xlsx" (Json.obj [("dates", Json.str "2024-01-01")]) = none := rfl

/-- C4 amended: when the `dates` entry is absent or falsy (null, `0`, `""`,
empty list/object, `False`), the dates step succeeds with an empty
`MilestoneDates`, and any record materialized from such a map carries the
empty `MilestoneDates`; a truthy malformed `dates` value instead fails the
record's construction. -/
theorem C4_falsy_dates_default (filename : String) (raw : List (String × Json))
    (item : ProductionItemCreate)
    (hfalsy : ((lookup raw "dates").all fun v => !jsonTruthy v) = true)
    (h : mkItem filename (Json.obj raw) = some item) :
    mkDatesField (lookup raw "dates") = some defaultProductionDates ∧
    item.dates = defaultProductionDates := by
  have hd := (mkItem_inv h).1
  have hmk : mkDatesField (lookup raw "dates") = some defaultProductionDates := by
    cases hl : lookup raw "dates" with
    | none => rfl
    | some v =>
      rw [hl] at hfalsy
      simp [Option.all] at hfalsy
      simp [mkDatesField, hfalsy]
  refine ⟨hmk, ?_⟩
  rw [hmk] at hd
  exact (Option.some_inj.mp hd).symm

/-- Witness for C4: a raw map with no `dates` entry materializes with the
empty `MilestoneDates`. -/
theorem C4_falsy_dates_default_witness :
    mkDatesField (lookup [("style", Json.str "A-1")] "dates") =
      some defaultProductionDates ∧
    (⟨none, some "A-1", none, none, none, some "pending", defaultProductionDates,
      some "plan.xlsx", some []⟩ : ProductionItemCreate).dates =
      defaultProductionDates :=
  C4_falsy_dates_default "plan.xlsx" [("style", Json.str "A-1")] _ rfl rfl

/-- C10: an explicit null `status` in the raw map materializes as a null
status, while the `"pending"` default applies exactly when the `status` key
is absent. -/
theorem C10_status_null_vs_absent (filename : String) (raw : List (String × Json))
    (item : ProductionItemCreate) :
    (mkItem filename (Json.obj raw) = some item →
      lookup raw "status" = some Json.null → item.status = none) ∧
    (mkItem filename (Json.obj raw) = some item →
      lookup raw "status" = none → item.status = some "pending") := by
  constructor
  · intro h hl
    have hs := (mkItem_inv h).2.2.2.2.2.2.1
    rw [getStatusField, hl] at hs
    exact (Option.some_inj.mp hs).symm
  · intro h hl
    have hs := (mkItem_inv h).2.2.2.2.2.2.1
    rw [getStatusField, hl] at hs
    exact (Option.some_inj.mp hs).symm

/-- Witness for C10: a raw map with `status: null` and one without a
`status` key. -/
theorem C10_status_null_vs_absent_witness :
    (⟨none, none, none, none, none, none, defaultProductionDates,
      some "plan.xlsx", some []⟩ : ProductionItemCreate).status = none ∧
    (⟨none, some "A-1", none, none, none, some "pending", defaultProductionDates,
      some "plan.xlsx", some []⟩ : ProductionItemCreate).status = some "pending" :=
  ⟨(C10_status_null_vs_absent "plan.xlsx" [("status", Json.null)] _).1 rfl rfl,
   (C10_status_null_vs_absent "plan.xlsx" [("style", Json.str "A-1")] _).2 rfl rfl⟩

theorem mem_insertByCreatedDesc {e d : StoredDoc} {l : List StoredDoc}
    (h : e ∈ insertByCreatedDesc d l) : e = d ∨ e ∈ l := by
  induction l with
  | nil => simpa [insertByCreatedDesc] using h
  | cons x xs ih =>
    by_cases hx : x.created_at ≤ d.created_at
    · simp only [insertByCreatedDesc, if_pos hx, List.mem_cons] at h
      rcases h with h | h | h
      · exact Or.inl h
      · exact Or.inr (by simp [h])
      · exact Or.inr (by simp [h])
    · simp only [insertByCreatedDesc, if_neg hx, List.mem_cons] at h
      rcases h with h | h
      · exact Or.inr (by simp [h])
      · rcases ih h with h' | h'
        · exact Or.inl h'
        · exact Or.inr (by simp [h'])

theorem mem_sortByCreatedDesc {e : StoredDoc} {l : List StoredDoc}
    (h : e ∈ sortByCreatedDesc l) : e ∈ l := by
  induction l with
  | nil => simp [sortByCreatedDesc] at h
  | cons x xs ih =>
    rcases mem_insertByCreatedDesc h with h' | h'
    · simp [h']
    · simp [ih h']

/-- C5: the total returned by the query operation counts exactly the records
matching the same predicate the page is filtered by, and it is invariant
under any change of `skip` and `limit` with the filter held fixed. -/
theorem C5_total_matches_filter (db : List StoredDoc)
    (skip limit skip' limit' : Nat) (f : ItemFilter) :
    ((get_production_items db skip limit f).2 =
      (db.filter (matchesQuery f)).length) ∧
    (∀ d ∈ (get_production_items db skip limit f).1, matchesQuery f d = true) ∧
    ((get_production_items db skip limit f).2 =
      (get_production_items db skip' limit' f).2) := by
  refine ⟨rfl, ?_, rfl⟩
  intro d hd
  have h1 : d ∈ sortByCreatedDesc (db.filter (matchesQuery f)) :=
    List.mem_of_mem_drop (List.mem_of_mem_take hd)
  exact (List.mem_filter.mp (mem_sortByCreatedDesc h1)).2

/-- Witness for C5 at a concrete two-record store. -/
theorem C5_total_matches_filter_witness :
    ((get_production_items
        [⟨"aaaaaaaaaaaaaaaaaaaaaaaa", none, some "Classic", none, none, none,
          some "pending", 1, 1⟩,
         ⟨"bbbbbbbbbbbbbbbbbbbbbbbb", none, some "Slim", none, none, none,
          some "pending", 2, 2⟩]
        0 1 ⟨none, some "pending", none⟩).2 = 2) ∧
    matchesQuery ⟨none, some "pending", none⟩
      ⟨"bbbbbbbbbbbbbbbbbbbbbbbb", none, some "Slim", none, none, none,
        some "pending", 2, 2⟩ = true := by
  constructor
  · exact ((C5_total_matches_filter
      [⟨"aaaaaaaaaaaaaaaaaaaaaaaa", none, some "Classic", none, none, none,
        some "pending", 1, 1⟩,
       ⟨"bbbbbbbbbbbbbbbbbbbbbbbb", none, some "Slim", none, none, none,
        some "pending", 2, 2⟩] 0 1 7 9 ⟨none, some "pending", none⟩).2.2).trans rfl
  · exact (C5_total_matches_filter
      [⟨"aaaaaaaaaaaaaaaaaaaaaaaa", none, some "Classic", none, none, none,
        some "pending", 1, 1⟩,
       ⟨"bbbbbbbbbbbbbbbbbbbbbbbb", none, some "Slim", none, none, none,
        some "pending", 2, 2⟩] 0 1 7 9 ⟨none, some "pending", none⟩).2.1
      _ (by decide)

theorem matchHere_compile_literal (s : List Char) (t : List Char)
    (h : ∀ c ∈ s, c ≠ '.') :
    matchHere (compilePattern s) t = prefixCI s t := by
  induction s generalizing t with
  | nil => rfl
  | cons c cs ih =>
    cases t with
    | nil => rfl
    | cons d ds =>
      have hc : c ≠ '.' := h c (by simp)
      have hcs : ∀ c' ∈ cs, c' ≠ '.' := fun c' hc' => h c' (by simp [hc'])
      simp only [compilePattern, List.map_cons, if_neg hc, matchHere, prefixCI, charMatch]
      exact congrArg (fun b => (decide (c.toLower = d.toLower) && b)) (ih ds hcs)

theorem regexSearch_compile_literal (s t : List Char) (h : ∀ c ∈ s, c ≠ '.') :
    regexSearch (compilePattern s) t = substrCI s t := by
  induction t with
  | nil => simp [regexSearch, substrCI, matchHere_compile_literal s [] h]
  | cons c cs ih =>
    simp [regexSearch, substrCI, matchHere_compile_literal s (c :: cs) h, ih]

/-- C6 corrected (amendment): for non-empty filter strings free of regex
metacharacters, the `style` and `order_number` filters select exactly the
records whose field contains the filter string anywhere ignoring case,
while a non-empty `status` filter selects exactly the records whose status
equals it. -/
theorem C6_literal_filters_are_substring (s st : String) (d : StoredDoc)
    (hs : s ≠ "") (hmeta : ∀ c ∈ s.data, isRegexMeta c = false) (hst : st ≠ "") :
    (matchesQuery ⟨some s, none, none⟩ d =
      match d.style with
      | none => false
      | some t => stringContainsCI s t) ∧
    (matchesQuery ⟨none, none, some s⟩ d =
      match d.order_number with
      | none => false
      | some t => stringContainsCI s t) ∧
    (matchesQuery ⟨none, some st, none⟩ d = decide (d.status = some st)) := by
  have hdot : ∀ c ∈ s.data, c ≠ '.' := by
    intro c hc hcontra
    have := hmeta c hc
    rw [hcontra] at this
    simp [isRegexMeta] at this
  refine ⟨?_, ?_, ?_⟩
  · cases hstyle : d.style with
    | none => simp [matchesQuery, hs, fieldRegexCI, hstyle]
    | some t =>
      simp only [matchesQuery, if_neg hs, fieldRegexCI, hstyle, Bool.and_true]
      exact regexSearch_compile_literal s.data t.data hdot
  · cases horder : d.order_number with
    | none => simp [matchesQuery, hs, fieldRegexCI, horder]
    | some t =>
      simp only [matchesQuery, if_neg hs, fieldRegexCI, horder, Bool.true_and]
      exact regexSearch_compile_literal s.data t.data hdot
  · simp [matchesQuery, hst]

/-- Witness for the amended C6: the spec's own example, filter `classic`
against a record with style `Classic-Fit`, plus an exact status match. -/
theorem C6_literal_filters_are_substring_witness :
    (matchesQuery ⟨some "classic", none, none⟩
      ⟨"aaaaaaaaaaaaaaaaaaaaaaaa", some "PO-1", some "Classic-Fit", none, none,
        none, some "pending", 1, 1⟩ =
      stringContainsCI "classic" "Classic-Fit") ∧
    (matchesQuery ⟨none, some "pending", none⟩
      ⟨"aaaaaaaaaaaaaaaaaaaaaaaa", some "PO-1", some "Classic-Fit", none, none,
        none, some "pending", 1, 1⟩ = true) ∧
    stringContainsCI "classic" "Classic-Fit" = true := by
  refine ⟨?_, ?_, by decide⟩
  · exact (C6_literal_filters_are_substring "classic" "pending"
      ⟨"aaaaaaaaaaaaaaaaaaaaaaaa", some "PO-1", some "Classic-Fit", none, none,
        none, some "pending", 1, 1⟩ (by decide) (by decide) (by decide)).1
  · exact ((C6_literal_filters_are_substring "classic" "pending"
      ⟨"aaaaaaaaaaaaaaaaaaaaaaaa", some "PO-1", some "Classic-Fit", none, none,
        none, some "pending", 1, 1⟩ (by decide) (by decide) (by decide)).2.2).trans
      (by decide)

/-- C6 counterexample: the filter string `.` selects a record whose style
`x` does not contain `.` at all — the `$regex` clause is not a plain
substring test, refuting the claim for metacharacter filter strings. -/
theorem C6_counterexample_dot_filter :
    (matchesQuery ⟨some ".", none, none⟩
      ⟨"aaaaaaaaaaaaaaaaaaaaaaaa", none, some "x", none, none, none, none,
        0, 0⟩ = true) ∧
    stringContainsCI "." "x" = false := by
  constructor <;> decide

/-- C7: a syntactically invalid identifier makes `get` return not-found and
`delete` return not-removed (leaving the store untouched), indistinguishable
from a valid identifier that never existed. -/
theorem C7_invalid_id_is_not_found (db : List StoredDoc) (item_id : String)
    (h : isValidObjectId item_id = false) :
    get_production_item db item_id = none ∧
    delete_production_item db item_id = (db, false) ∧
    (∀ fresh : String, isValidObjectId fresh = true →
      (∀ d ∈ db, d.id ≠ fresh) →
      get_production_item db item_id = get_production_item db fresh ∧
      (delete_production_item db item_id).2 = (delete_production_item db fresh).2) := by
  refine ⟨?_, ?_, ?_⟩
  · simp [get_production_item, h]
  · simp [delete_production_item, h]
  · intro fresh hfresh hnotin
    constructor
    · simp only [get_production_item, h, hfresh, Bool.false_eq_true, if_false, if_true]
      symm
      rw [List.find?_eq_none]
      intro d hd
      simpa using hnotin d hd
    · simp only [delete_production_item, h, hfresh, Bool.false_eq_true, if_false, if_true]
      symm
      simp only [List.any_eq_false]
      intro d hd
      simpa using hnotin d hd

/-- Witness for C7 at a malformed identifier against a one-record store. -/
theorem C7_invalid_id_is_not_found_witness :
    (get_production_item
      [⟨"aaaaaaaaaaaaaaaaaaaaaaaa", none, none, none, none, none, none, 0, 0⟩]
      "not-an-objectid" = none) ∧
    (delete_production_item
      [⟨"aaaaaaaaaaaaaaaaaaaaaaaa", none, none, none, none, none, none, 0, 0⟩]
      "not-an-objectid" =
      ([⟨"aaaaaaaaaaaaaaaaaaaaaaaa", none, none, none, none, none, none, 0, 0⟩],
        false)) ∧
    (∀ fresh : String, isValidObjectId fresh = true →
      (∀ d ∈ [(⟨"aaaaaaaaaaaaaaaaaaaaaaaa", none, none, none, none, none, none,
        0, 0⟩ : StoredDoc)], d.id ≠ fresh) →
      get_production_item
        [⟨"aaaaaaaaaaaaaaaaaaaaaaaa", none, none, none, none, none, none, 0, 0⟩]
        "not-an-objectid" =
      get_production_item
        [⟨"aaaaaaaaaaaaaaaaaaaaaaaa", none, none, none, none, none, none, 0, 0⟩]
        fresh ∧
      (delete_production_item
        [⟨"aaaaaaaaaaaaaaaaaaaaaaaa", none, none, none, none, none, none, 0, 0⟩]
        "not-an-objectid").2 =
      (delete_production_item
        [⟨"aaaaaaaaaaaaaaaaaaaaaaaa", none, none, none, none, none, none, 0, 0⟩]
        fresh).2) :=
  C7_invalid_id_is_not_found
    [⟨"aaaaaaaaaaaaaaaaaaaaaaaa", none, none, none, none, none, none, 0, 0⟩]
    "not-an-objectid" (by decide)

theorem mem_updateFirstDoc {p : StoredDoc → Bool} {f : StoredDoc → StoredDoc}
    {l : List StoredDoc} {e : StoredDoc} (h : e ∈ updateFirstDoc p f l) :
    e ∈ l ∨ ∃ d ∈ l, e = f d := by
  induction l with
  | nil => simp [updateFirstDoc] at h
  | cons x xs ih =>
    by_cases hx : p x
    · simp only [updateFirstDoc, if_pos hx, List.mem_cons] at h
      rcases h with h | h
      · exact Or.inr ⟨x, by simp, h⟩
      · exact Or.inl (by simp [h])
    · simp only [updateFirstDoc, if_neg hx, List.mem_cons] at h
      rcases h with h | h
      · exact Or.inl (by simp [h])
      · rcases ih h with h' | ⟨d, hd, he⟩
        · exact Or.inl (by simp [h'])
        · exact Or.inr ⟨d, by simp [hd], he⟩

theorem forall₂_updateFirstDoc (p : StoredDoc → Bool) (u : UpdateFields) (t : Nat)
    (l : List StoredDoc) (hclock : ∀ d ∈ l, d.updated_at ≤ t) :
    List.Forall₂ (fun d d' => d.updated_at ≤ d'.updated_at) l
      (updateFirstDoc p (applyUpdate u t) l) := by
  induction l with
  | nil => exact List.Forall₂.nil
  | cons x xs ih =>
    by_cases hx : p x
    · simp only [updateFirstDoc, if_pos hx]
      exact List.Forall₂.cons (hclock x (by simp))
        (List.forall₂_same.mpr fun d _ => le_refl d.updated_at)
    · simp only [updateFirstDoc, if_neg hx]
      exact List.Forall₂.cons (le_refl x.updated_at)
        (ih fun d hd => hclock d (by simp [hd]))

/-- C8: creation stamps both timestamps with `created_at ≤ updated_at`
(given the two clock reads are in order), and a partial-field update, with a
clock that has not regressed below the stored stamps, preserves
`created_at ≤ updated_at` on every record and never moves any record's
`updated_at` backwards. -/
theorem C8_timestamp_invariant (db : List StoredDoc) (item : ProductionItemCreate)
    (newId : String) (t1 t2 : Nat) (item_id : String) (u : UpdateFields) (t : Nat)
    (h12 : t1 ≤ t2)
    (hinv : ∀ d ∈ db, d.created_at ≤ d.updated_at)
    (hclock : ∀ d ∈ db, d.updated_at ≤ t) :
    (∀ d ∈ (create_production_item db item newId t1 t2).1,
      d.created_at ≤ d.updated_at) ∧
    (∀ d ∈ (update_production_item db item_id u t).1,
      d.created_at ≤ d.updated_at) ∧
    List.Forall₂ (fun d d' => d.updated_at ≤ d'.updated_at) db
      (update_production_item db item_id u t).1 := by
  refine ⟨?_, ?_, ?_⟩
  · intro d hd
    simp only [create_production_item, List.mem_append, List.mem_singleton] at hd
    rcases hd with hd | hd
    · exact hinv d hd
    · rw [hd]
      exact h12
  · intro d hd
    unfold update_production_item at hd
    by_cases hvalid : isValidObjectId item_id
    · simp only [hvalid, if_true] at hd
      rcases mem_updateFirstDoc hd with h' | ⟨e, he, hde⟩
      · exact hinv d h'
      · rw [hde]
        exact le_trans (hinv e he) (hclock e he)
    · simp only [hvalid, Bool.false_eq_true, if_false] at hd
      exact hinv d hd
  · unfold update_production_item
    by_cases hvalid : isValidObjectId item_id
    · simp only [hvalid, if_true]
      exact forall₂_updateFirstDoc _ u t db hclock
    · simp only [hvalid, Bool.false_eq_true, if_false]
      exact List.forall₂_same.mpr fun d _ => le_refl d.updated_at

/-- Witness for C8 at a concrete one-record store. -/
theorem C8_timestamp_invariant_witness :
    (∀ d ∈ (create_production_item
        [⟨"aaaaaaaaaaaaaaaaaaaaaaaa", none, none, none, none, none, none, 1, 2⟩]
        ⟨none, none, none, none, none, some "pending", defaultProductionDates,
          some "plan.xlsx", some []⟩
        "bbbbbbbbbbbbbbbbbbbbbbbb" 3 4).1,
      d.created_at ≤ d.updated_at) ∧
    (∀ d ∈ (update_production_item
        [⟨"aaaaaaaaaaaaaaaaaaaaaaaa", none, none, none, none, none, none, 1, 2⟩]
        "aaaaaaaaaaaaaaaaaaaaaaaa" ⟨none, none, none, none, none, some (some "completed")⟩
        5).1,
      d.created_at ≤ d.updated_at) ∧
    List.Forall₂ (fun d d' : StoredDoc => d.updated_at ≤ d'.updated_at)
      [⟨"aaaaaaaaaaaaaaaaaaaaaaaa", none, none, none, none, none, none, 1, 2⟩]
      (update_production_item
        [⟨"aaaaaaaaaaaaaaaaaaaaaaaa", none, none, none, none, none, none, 1, 2⟩]
        "aaaaaaaaaaaaaaaaaaaaaaaa" ⟨none, none, none, none, none, some (some "completed")⟩
        5).1 :=
  C8_timestamp_invariant
    [⟨"aaaaaaaaaaaaaaaaaaaaaaaa", none, none, none, none, none, none, 1, 2⟩]
    ⟨none, none, none, none, none, some "pending", defaultProductionDates,
      some "plan.xlsx", some []⟩
    "bbbbbbbbbbbbbbbbbbbbbbbb" 3 4 "aaaaaaaaaaaaaaaaaaaaaaaa"
    ⟨none, none, none, none, none, some (some "completed")⟩ 5
    (by decide) (by decide) (by decide)

/-- C9: an empty batch yields an empty identifier list, leaves the store
untouched, and makes no `insert_many` call. -/
theorem C9_empty_batch_no_call (db : List StoredDoc) (mkId : Nat → String)
    (clock : Nat → Nat) :
    create_many_production_items db [] mkId clock = ([], db, 0) := rfl

end ProdPlan
